import Mathlib

/-!
Verification development for the metadata core of the `lsd` directory-listing
tool (`src/meta/mod.rs`): the recursive tree builder `recurse_into`, the
size aggregator `calculate_total_size` with its fallback filesystem walk
`calculate_total_file_size`, and the node constructor `from_path`.

The filesystem is embedded as a record of syscall-like functions together
with a finiteness witness that makes the unbounded fallback walk well
founded.  Error reporting through `eprintln!` is embedded as an explicit
list of `(path, error)` pairs produced alongside each result.
-/

set_option autoImplicit false

namespace Lsd

/-- Paths are lists of components; `[]` stands for the filesystem root. -/
abbrev Path := List String

/-- Embeds `std::path::Path::file_name`: the final component, if any. -/
def Path.file_name (p : Path) : Option String := p.getLast?

/-- Embeds `std::path::Path::parent`: drop the final component; `none` at the root. -/
def Path.parent (p : Path) : Option Path :=
  if p = [] then none else some p.dropLast

/-- The parent path used when synthesizing the `..` entry: the parent of the
canonicalized path, or the root when there is no parent (mod.rs lines 80-83). -/
def parent_path_of (p : Path) : Path :=
  match Path.parent p with
  | none => []
  | some q => q

/-- Categorized I/O errors, as in `std::io::ErrorKind`. -/
inductive IOErr where
  | notFound
  | permissionDenied
  | invalidInput
  | other (code : Nat)
deriving DecidableEq

/-- Raw file-type classification carried by a platform metadata record
(`std::fs::FileType`). -/
inductive RawType where
  | file
  | dir
  | symlink
  | special
deriving DecidableEq

/-- Embeds `std::fs::FileType::is_file`. -/
def RawType.is_file : RawType → Bool
  | .file => true
  | _ => false

/-- Embeds `std::fs::FileType::is_dir`. -/
def RawType.is_dir : RawType → Bool
  | .dir => true
  | _ => false

/-- Modelled from the spec: the platform metadata record (the `metadata.rs`
collaborator is outside src/); it carries a byte length, a raw type
classification, the modification time and POSIX ownership/permission data. -/
structure Metadata where
  len : Nat
  raw : RawType
  modified : Nat
  ownerUid : Nat
  ownerGid : Nat
  permBits : Nat
deriving DecidableEq

/-- Modelled from the spec: the `Permissions` attribute (permissions.rs is not
in src/), a pure function of the metadata record's permission bits. -/
structure Permissions where
  bits : Nat
deriving DecidableEq

/-- Modelled from the spec: the `Owner` attribute (owner.rs is not in src/). -/
structure Owner where
  uid : Nat
  gid : Nat
deriving DecidableEq

/-- Modelled from the spec: the `Date` attribute (date.rs is not in src/). -/
structure Date where
  stamp : Nat
deriving DecidableEq

/-- Modelled from the spec: the `Size` attribute (size.rs is not in src/),
a wrapper around a byte count. -/
structure Size where
  bytes : Nat
deriving DecidableEq

/-- Modelled from the spec: the display `Name` attribute (name.rs is not in
src/); its `name` field is the mutable display string that `recurse_into`
overrides to `.` and `..` for synthetic entries. -/
structure Name where
  name : String
deriving DecidableEq

/-- Modelled from the spec: the `FileType` attribute (filetype.rs is not in
src/); the tree builder only distinguishes `Directory` from the rest. -/
inductive FileType where
  | Directory (uid : Bool)
  | File (uid : Bool) (exec : Bool)
  | SymLink
  | Special
deriving DecidableEq

/-- The check performed by the `match self.file_type` guard of `recurse_into`
(mod.rs lines 60-63) and the `if let FileType::Directory` guard of
`calculate_total_size` (line 136). -/
def FileType.is_directory : FileType → Bool
  | .Directory _ => true
  | _ => false

/-- Modelled from the spec: `record × permissions → file_type`
(`FileType::new`, filetype.rs is not in src/). -/
def FileType.new (md : Metadata) (perm : Permissions) : FileType :=
  match md.raw with
  | .dir => .Directory (perm.bits.testBit 11)
  | .file => .File (perm.bits.testBit 11) (perm.bits.testBit 6)
  | .symlink => .SymLink
  | .special => .Special

/-- Modelled from the spec: `path × file_type → display_name`
(`Name::new`, name.rs is not in src/). -/
def Name.new (p : Path) (ft : FileType) : Name :=
  match ft with
  | _ => ⟨(Path.file_name p).getD ""⟩

/-- Modelled from the spec: the display `Indicator`, a pure function of the
file type (indicator.rs is not in src/). -/
structure Indicator where
  ft : FileType
deriving DecidableEq

/-- Modelled from the spec: `Indicator::from` (indicator.rs is not in src/). -/
def Indicator.from_ft (ft : FileType) : Indicator := ⟨ft⟩

/-- Modelled from the spec: the symlink-target attribute
(`symlink_target_or_unreadable`; symlink.rs is not in src/). -/
inductive SymLink where
  | target (p : Path)
  | unreadable
deriving DecidableEq

/-- Modelled from the spec: `Owner::from` (owner.rs is not in src/). -/
def Owner.from_md (md : Metadata) : Owner := ⟨md.ownerUid, md.ownerGid⟩

/-- Modelled from the spec: `Permissions::from` (permissions.rs is not in src/). -/
def Permissions.from_md (md : Metadata) : Permissions := ⟨md.permBits⟩

/-- Modelled from the spec: `Date::from` (date.rs is not in src/). -/
def Date.from_md (md : Metadata) : Date := ⟨md.modified⟩

/-- Modelled from the spec: `Size::from` (size.rs is not in src/). -/
def Size.from_md (md : Metadata) : Size := ⟨md.len⟩

/-- Embeds `Size::new(bytes)` (used by `calculate_total_size`). -/
def Size.new (b : Nat) : Size := ⟨b⟩

/-- Embeds `Size::get_bytes`. -/
def Size.get_bytes (s : Size) : Nat := s.bytes

/-- Embeds `str::starts_with(char)` (the hidden-file check of mod.rs line
107): whether the first character of the string is the given character. -/
def starts_with (s : String) (c : Char) : Bool :=
  match s.data with
  | [] => false
  | a :: _ => a == c

/-- Embeds `Result::is_ok` on I/O results. -/
def isOk {α : Type} : Except IOErr α → Bool
  | .ok _ => true
  | .error _ => false

/-- Modelled from the spec: the display mode (`crate::flags::Display` is not
in src/); the spec lists the four modes DirectoryItself, OnlyVisible, All and
Default. -/
inductive Display where
  | DisplayAll
  | DisplayDirectoryItself
  | DisplayOnlyVisible
  | DisplayDefault
deriving DecidableEq

/-- Modelled from the spec: the exclusion set (`globset::GlobSet` is external);
it exposes a pure membership test on file names. -/
structure GlobSet where
  is_match : String → Bool

/-- One `(path, error)` pair sent to the error channel (an `eprintln!` of the
form `cannot access '<path>': <err>`). -/
abbrev ErrEntry := Path × IOErr

/-- The filesystem, embedded as the syscall interface used by mod.rs.
`readDir` returns the entry paths in enumeration order, each possibly an
error (the `entry?` at line 96).  The two final fields witness that the
filesystem is finite: successful enumeration only happens above strictly
shorter paths and below a global depth bound; they make the unbounded
fallback walk `calculate_total_file_size` well founded. -/
structure FS where
  readDir : Path → Except IOErr (List (Except IOErr Path))
  metadata : Path → Except IOErr Metadata
  symlinkMetadata : Path → Except IOErr Metadata
  readLink : Path → Except IOErr Path
  canonicalize : Path → Except IOErr Path
  fsBound : Nat
  readDir_longer : ∀ p l q, readDir p = .ok l → Except.ok q ∈ l → p.length < q.length
  readDir_bounded : ∀ p l, readDir p = .ok l → p.length < fsBound

/-- The tree node built by `Meta::from_path` (mod.rs lines 31-43). -/
inductive Meta where
  | mk (name : Name) (path : Path) (permissions : Permissions) (date : Date)
      (owner : Owner) (file_type : FileType) (size : Size) (symlink : SymLink)
      (indicator : Indicator) (content : Option (List Meta)) : Meta

def Meta.name : Meta → Name
  | .mk n _ _ _ _ _ _ _ _ _ => n

def Meta.path : Meta → Path
  | .mk _ p _ _ _ _ _ _ _ _ => p

def Meta.permissions : Meta → Permissions
  | .mk _ _ pe _ _ _ _ _ _ _ => pe

def Meta.date : Meta → Date
  | .mk _ _ _ d _ _ _ _ _ _ => d

def Meta.owner : Meta → Owner
  | .mk _ _ _ _ o _ _ _ _ _ => o

def Meta.file_type : Meta → FileType
  | .mk _ _ _ _ _ ft _ _ _ _ => ft

def Meta.size : Meta → Size
  | .mk _ _ _ _ _ _ s _ _ _ => s

def Meta.symlink : Meta → SymLink
  | .mk _ _ _ _ _ _ _ sy _ _ => sy

def Meta.indicator : Meta → Indicator
  | .mk _ _ _ _ _ _ _ _ i _ => i

def Meta.content : Meta → Option (List Meta)
  | .mk _ _ _ _ _ _ _ _ _ c => c

/-- The field assignment `meta.name.name = s` (mod.rs lines 86 and 89). -/
def Meta.set_name : Meta → Name → Meta
  | .mk _ p pe d o ft s sy i c, n => .mk n p pe d o ft s sy i c

/-- The field assignment `entry_meta.content = content` (mod.rs line 122). -/
def Meta.set_content : Meta → Option (List Meta) → Meta
  | .mk n p pe d o ft s sy i _, c => .mk n p pe d o ft s sy i c

/-- The field assignment `self.size = Size::new(..)` (mod.rs lines 143, 146). -/
def Meta.set_size : Meta → Size → Meta
  | .mk n p pe d o ft _ sy i c, s => .mk n p pe d o ft s sy i c

/-- Embeds `Meta::from_path` (mod.rs lines 195-227, unix configuration):
fetch metadata without following a final symlink hop, then derive every
attribute; `content` starts absent. -/
def from_path (fs : FS) (path : Path) : Except IOErr Meta :=
  let mdRes := if isOk (fs.readLink path) then fs.symlinkMetadata path else fs.metadata path
  match mdRes with
  | .error e => .error e
  | .ok metadata =>
    let owner := Owner.from_md metadata
    let permissions := Permissions.from_md metadata
    let file_type := FileType.new metadata permissions
    let name := Name.new path file_type
    .ok (.mk name path permissions (Date.from_md metadata) owner file_type
      (Size.from_md metadata) (SymLink.from_fs fs path) (Indicator.from_ft file_type) none)
where
  /-- Modelled from the spec: `SymLink::from` (symlink.rs is not in src/),
  resolving the link target or yielding the unreadable marker. -/
  SymLink.from_fs (fs : FS) (p : Path) : SymLink :=
    match fs.readLink p with
    | .ok t => .target t
    | .error _ => .unreadable

/-- The synthetic-entry block of `recurse_into` (mod.rs lines 75-93): under
`DisplayAll`, a `.` copy of the current node and a `..` node built from the
canonicalized parent, in that order; otherwise nothing.  Canonicalization or
parent-construction failure is fatal for the call. -/
def synth_entries (fs : FS) (self : Meta) (display : Display) : Except IOErr (List Meta) :=
  if display == Display.DisplayAll then
    match fs.canonicalize self.path with
    | .error e => .error e
    | .ok absolute_path =>
      let current_meta := self.set_name ⟨"."⟩
      match from_path fs (parent_path_of absolute_path) with
      | .error e => .error e
      | .ok pm => .ok [current_meta, pm.set_name ⟨".."⟩]
  else .ok []

/-- The entry loop of `recurse_into` (mod.rs lines 95-130), abstracted over
the recursive descent `recur` into a constructed child.  Returns the
accumulated child list (or the fatal error) together with the reported
errors, in report order. -/
def process_entries (fs : FS) (recur : Meta → Except IOErr (Option (List Meta)) × List ErrEntry)
    (display : Display) (globs : GlobSet) :
    List (Except IOErr Path) → List Meta → List ErrEntry →
      Except IOErr (List Meta) × List ErrEntry
  | [], acc, log => (.ok acc, log)
  | e :: rest, acc, log =>
    match e with
    | .error err => (.error err, log)
    | .ok path =>
      match Path.file_name path with
      | none => (.error .invalidInput, log)
      | some nm =>
        if globs.is_match nm then
          process_entries fs recur display globs rest acc log
        else if display == Display.DisplayOnlyVisible && starts_with nm '.' then
          process_entries fs recur display globs rest acc log
        else
          match from_path fs path with
          | .error err => process_entries fs recur display globs rest acc (log ++ [(path, err)])
          | .ok entry_meta =>
            match recur entry_meta with
            | (.error err, sublog) =>
              process_entries fs recur display globs rest acc (log ++ sublog ++ [(path, err)])
            | (.ok c, sublog) =>
              process_entries fs recur display globs rest
                (acc ++ [entry_meta.set_content c]) (log ++ sublog)

/-- Embeds `Meta::recurse_into` (mod.rs lines 46-133).  The result pairs the
returned `Ok`/`Err` value with the list of errors reported to the error
channel during the call. -/
def recurse_into (fs : FS) : Nat → Meta → Display → GlobSet →
    Except IOErr (Option (List Meta)) × List ErrEntry
  | 0, _, _, _ => (.ok none, [])
  | depth + 1, self, display, globs =>
    if display == Display.DisplayDirectoryItself then (.ok none, [])
    else if self.file_type.is_directory then
      match fs.readDir self.path with
      | .error err => (.ok none, [(self.path, err)])
      | .ok entries =>
        match synth_entries fs self display with
        | .error e => (.error e, [])
        | .ok init =>
          let r := process_entries fs (fun m => recurse_into fs depth m display globs)
            display globs entries init []
          (r.1.map some, r.2)
    else (.ok none, [])

/-- Embeds `Meta::calculate_total_file_size` (mod.rs lines 151-193): the
depth-unbounded fallback walk of a real subtree.  A metadata failure
contributes 0; a file contributes its length; a directory contributes its
own length plus the recursive sums over its entries (a failed entry
contributing 0); anything else — in particular a symlink, whose metadata is
fetched without following the link — contributes 0. -/
def calculate_total_file_size (fs : FS) (path : Path) : Nat :=
  let mdRes := if isOk (fs.readLink path) then fs.symlinkMetadata path else fs.metadata path
  match mdRes with
  | .error _ => 0
  | .ok metadata =>
    if metadata.raw.is_file then metadata.len
    else if metadata.raw.is_dir then
      match h : fs.readDir path with
      | .error _ => metadata.len
      | .ok entries =>
        metadata.len + (entries.attach.map (fun e =>
          match e with
          | ⟨.ok q, _⟩ => calculate_total_file_size fs q
          | ⟨.error _, _⟩ => 0)).sum
    else 0
termination_by fs.fsBound - path.length
decreasing_by
  rename_i hq
  have h1 : path.length < q.length := fs.readDir_longer path entries q h hq
  have h3 := fs.readDir_bounded path entries h
  omega

mutual

/-- Embeds `Meta::calculate_total_size` (mod.rs lines 135-149): on a
directory, either finalize the children post-order and overwrite the size
with own size plus the children's finalized sizes, or — when the children
are absent — overwrite the size with the fallback walk's total; on a
non-directory, do nothing. -/
def calculate_total_size (fs : FS) : Meta → Meta
  | .mk n p pe d o ft s sy i c =>
    if ft.is_directory then
      match c with
      | some metas =>
        let metas2 := calc_list fs metas
        .mk n p pe d o ft
          (Size.new (s.get_bytes + (metas2.map (fun x => x.size.get_bytes)).sum))
          sy i (some metas2)
      | none => .mk n p pe d o ft (Size.new (calculate_total_file_size fs p)) sy i none
    else .mk n p pe d o ft s sy i c

/-- The `for x in metas.iter_mut()` loop of `calculate_total_size`
(mod.rs lines 139-142): finalize each child in order. -/
def calc_list (fs : FS) : List Meta → List Meta
  | [] => []
  | x :: xs => calculate_total_size fs x :: calc_list fs xs

end

/-- Models the Rust call `self.recurse_into(depth, display, ignore_globs)`
through its shared-reference receiver (`&self`, mod.rs line 47): the value of
the receiver across the call, paired with the call's returned value.  The
receiver is only read by the body, so it passes through unchanged. -/
def recurse_into_call (fs : FS) (self : Meta) (depth : Nat) (display : Display)
    (globs : GlobSet) : Meta × (Except IOErr (Option (List Meta)) × List ErrEntry) :=
  (self, recurse_into fs depth self display globs)

/-- A filesystem on which every syscall fails; it is used to evaluate the
purely tree-shaped parts of the aggregator. -/
def fsE : FS where
  readDir := fun _ => .error .notFound
  metadata := fun _ => .error .notFound
  symlinkMetadata := fun _ => .error .notFound
  readLink := fun _ => .error .notFound
  canonicalize := fun _ => .error .notFound
  fsBound := 0
  readDir_longer := fun _ _ _ h _ => Except.noConfusion h
  readDir_bounded := fun _ _ h => Except.noConfusion h

/-- A sample regular-file node of recorded size 10. -/
def mFile : Meta :=
  .mk ⟨"a"⟩ ["r", "a"] ⟨0⟩ ⟨0⟩ ⟨0, 0⟩ (.File false false) ⟨10⟩ .unreadable
    ⟨.File false false⟩ none

/-- A sample directory node of entry size 1 whose children were traversed. -/
def mDir : Meta :=
  .mk ⟨"r"⟩ ["r"] ⟨0⟩ ⟨0⟩ ⟨0, 0⟩ (.Directory false) ⟨1⟩ .unreadable
    ⟨.Directory false⟩ (some [mFile])

/-- A sample directory node of entry size 4 with an empty traversed child list. -/
def mDirEmpty : Meta :=
  .mk ⟨"e"⟩ ["e"] ⟨0⟩ ⟨0⟩ ⟨0, 0⟩ (.Directory false) ⟨4⟩ .unreadable
    ⟨.Directory false⟩ (some [])

/-- The exclusion set that matches nothing. -/
def noGlobs : GlobSet := ⟨fun _ => false⟩

/-- The exclusion set whose only pattern matches the literal name `.h`. -/
def matchH : GlobSet := ⟨fun s => s == ".h"⟩

/-- Directory enumeration of the concrete witness filesystem: `r` holds the
dotfile `.h`; `w` holds the subdirectory `c`, whose own enumeration yields a
failing entry; `a` is empty; everything else fails to open. -/
def fsWreadDir (p : Path) : Except IOErr (List (Except IOErr Path)) :=
  if p = ["r"] then .ok [.ok ["r", ".h"]]
  else if p = ["w"] then .ok [.ok ["w", "c"]]
  else if p = ["w", "c"] then .ok [.error .permissionDenied]
  else if p = ["a"] then .ok []
  else .error .notFound

/-- Link-following metadata of the concrete witness filesystem. -/
def fsWmetadata (p : Path) : Except IOErr Metadata :=
  if p = ([] : Path) then .ok ⟨0, .dir, 0, 0, 0, 0⟩
  else if p = ["r", ".h"] then .ok ⟨7, .file, 0, 0, 0, 0⟩
  else if p = ["w", "c"] then .ok ⟨2, .dir, 0, 0, 0, 0⟩
  else .error .notFound

/-- Non-following metadata of the concrete witness filesystem: the symlink
`l` has recorded size 7. -/
def fsWsymlinkMetadata (p : Path) : Except IOErr Metadata :=
  if p = ["l"] then .ok ⟨7, .symlink, 0, 0, 0, 0⟩ else .error .notFound

/-- Link resolution of the concrete witness filesystem: only `l` is a link. -/
def fsWreadLink (p : Path) : Except IOErr Path :=
  if p = ["l"] then .ok ["t"] else .error .notFound

/-- Canonicalization of the concrete witness filesystem. -/
def fsWcanonicalize (p : Path) : Except IOErr Path :=
  if p = ["a"] then .ok ["a"] else .error .notFound

/-- The concrete witness filesystem, with its finiteness proofs. -/
def fsW : FS where
  readDir := fsWreadDir
  metadata := fsWmetadata
  symlinkMetadata := fsWsymlinkMetadata
  readLink := fsWreadLink
  canonicalize := fsWcanonicalize
  fsBound := 3
  readDir_longer := by
    intro p l q h hq
    unfold fsWreadDir at h
    split_ifs at h with h1 h2 h3 h4
    · cases h; subst h1; simp at hq; subst hq; decide
    · cases h; subst h2; simp at hq; subst hq; decide
    · cases h; simp at hq
    · cases h; simp at hq
  readDir_bounded := by
    intro p l h
    unfold fsWreadDir at h
    split_ifs at h with h1 h2 h3 h4
    · subst h1; decide
    · subst h2; decide
    · subst h3; decide
    · subst h4; decide

/-- The directory node `r` containing only the dotfile `.h`. -/
def rootR : Meta :=
  .mk ⟨"r"⟩ ["r"] ⟨0⟩ ⟨0⟩ ⟨0, 0⟩ (.Directory false) ⟨1⟩ .unreadable
    ⟨.Directory false⟩ none

/-- The directory node `w` containing the subdirectory `c`. -/
def rootW : Meta :=
  .mk ⟨"w"⟩ ["w"] ⟨0⟩ ⟨0⟩ ⟨0, 0⟩ (.Directory false) ⟨1⟩ .unreadable
    ⟨.Directory false⟩ none

/-- The empty directory node `a`. -/
def rootA : Meta :=
  .mk ⟨"a"⟩ ["a"] ⟨0⟩ ⟨0⟩ ⟨0, 0⟩ (.Directory false) ⟨1⟩ .unreadable
    ⟨.Directory false⟩ none

/-- A directory node `z` that the witness filesystem fails to open. -/
def rootZ : Meta :=
  .mk ⟨"z"⟩ ["z"] ⟨0⟩ ⟨0⟩ ⟨0, 0⟩ (.Directory false) ⟨1⟩ .unreadable
    ⟨.Directory false⟩ none

/-- The node the constructor builds for `w/c` over the witness filesystem. -/
def c1child : Meta :=
  .mk ⟨"c"⟩ ["w", "c"] ⟨0⟩ ⟨0⟩ ⟨0, 0⟩ (.Directory false) ⟨2⟩ .unreadable
    ⟨.Directory false⟩ none

/-- The node the constructor builds for `r/.h` over the witness filesystem. -/
def c3hidden : Meta :=
  .mk ⟨".h"⟩ ["r", ".h"] ⟨0⟩ ⟨0⟩ ⟨0, 0⟩ (.File false false) ⟨7⟩ .unreadable
    ⟨.File false false⟩ none

/-- The node the constructor builds for the filesystem root (the parent used
for the `..` entry of `a`). -/
def mRootFs : Meta :=
  .mk ⟨""⟩ [] ⟨0⟩ ⟨0⟩ ⟨0, 0⟩ (.Directory false) ⟨0⟩ .unreadable
    ⟨.Directory false⟩ none

@[simp] theorem Meta.name_mk (n p pe d o ft s sy i c) :
    (Meta.mk n p pe d o ft s sy i c).name = n := rfl

@[simp] theorem Meta.path_mk (n p pe d o ft s sy i c) :
    (Meta.mk n p pe d o ft s sy i c).path = p := rfl

@[simp] theorem Meta.permissions_mk (n p pe d o ft s sy i c) :
    (Meta.mk n p pe d o ft s sy i c).permissions = pe := rfl

@[simp] theorem Meta.date_mk (n p pe d o ft s sy i c) :
    (Meta.mk n p pe d o ft s sy i c).date = d := rfl

@[simp] theorem Meta.owner_mk (n p pe d o ft s sy i c) :
    (Meta.mk n p pe d o ft s sy i c).owner = o := rfl

@[simp] theorem Meta.file_type_mk (n p pe d o ft s sy i c) :
    (Meta.mk n p pe d o ft s sy i c).file_type = ft := rfl

@[simp] theorem Meta.size_mk (n p pe d o ft s sy i c) :
    (Meta.mk n p pe d o ft s sy i c).size = s := rfl

@[simp] theorem Meta.symlink_mk (n p pe d o ft s sy i c) :
    (Meta.mk n p pe d o ft s sy i c).symlink = sy := rfl

@[simp] theorem Meta.indicator_mk (n p pe d o ft s sy i c) :
    (Meta.mk n p pe d o ft s sy i c).indicator = i := rfl

@[simp] theorem Meta.content_mk (n p pe d o ft s sy i c) :
    (Meta.mk n p pe d o ft s sy i c).content = c := rfl

@[simp] theorem Meta.set_name_mk (n p pe d o ft s sy i c n2) :
    (Meta.mk n p pe d o ft s sy i c).set_name n2 = .mk n2 p pe d o ft s sy i c := rfl

@[simp] theorem Meta.set_content_mk (n p pe d o ft s sy i c c2) :
    (Meta.mk n p pe d o ft s sy i c).set_content c2 = .mk n p pe d o ft s sy i c2 := rfl

@[simp] theorem Meta.set_size_mk (n p pe d o ft s sy i c s2) :
    (Meta.mk n p pe d o ft s sy i c).set_size s2 = .mk n p pe d o ft s2 sy i c := rfl

theorem Meta.set_content_path (m : Meta) (c) : (m.set_content c).path = m.path := by
  cases m; rfl

theorem Meta.set_content_content (m : Meta) (c) : (m.set_content c).content = c := by
  cases m; rfl

theorem Meta.set_name_content (m : Meta) (n) : (m.set_name n).content = m.content := by
  cases m; rfl

/-- A successfully constructed node records the path it was built from and
starts with `content` absent. -/
theorem from_path_ok (fs : FS) (p : Path) (m : Meta) (h : from_path fs p = .ok m) :
    m.path = p ∧ m.content = none := by
  unfold from_path at h
  split at h
  · cases hmd : fs.symlinkMetadata p
    · rw [hmd] at h; simp at h
    · rw [hmd] at h; simp at h; subst h; exact ⟨rfl, rfl⟩
  · cases hmd : fs.metadata p
    · rw [hmd] at h; simp at h
    · rw [hmd] at h; simp at h; subst h; exact ⟨rfl, rfl⟩

theorem recurse_into_zero (fs : FS) (self : Meta) (display : Display) (globs : GlobSet) :
    recurse_into fs 0 self display globs = (.ok none, []) := rfl

theorem recurse_into_succ_itself (fs : FS) (depth : Nat) (self : Meta) (globs : GlobSet) :
    recurse_into fs (depth + 1) self Display.DisplayDirectoryItself globs = (.ok none, []) := rfl

theorem recurse_into_succ_notdir (fs : FS) (depth : Nat) (self : Meta) (display : Display)
    (globs : GlobSet) (hd : display ≠ Display.DisplayDirectoryItself)
    (hft : self.file_type.is_directory = false) :
    recurse_into fs (depth + 1) self display globs = (.ok none, []) := by
  simp [recurse_into, hd, hft]

theorem recurse_into_succ_readDir_error (fs : FS) (depth : Nat) (self : Meta)
    (display : Display) (globs : GlobSet) (err : IOErr)
    (hd : display ≠ Display.DisplayDirectoryItself)
    (hft : self.file_type.is_directory = true)
    (hrd : fs.readDir self.path = .error err) :
    recurse_into fs (depth + 1) self display globs = (.ok none, [(self.path, err)]) := by
  simp [recurse_into, hd, hft, hrd]

/-- The entry loop only appends: the initial accumulator is a prefix of any
successful result. -/
theorem process_entries_prefix (fs : FS)
    (recur : Meta → Except IOErr (Option (List Meta)) × List ErrEntry)
    (display : Display) (globs : GlobSet) :
    ∀ (entries : List (Except IOErr Path)) (acc : List Meta) (log : List ErrEntry)
      (res : List Meta) (log2 : List ErrEntry),
      process_entries fs recur display globs entries acc log = (.ok res, log2) →
      ∃ t, res = acc ++ t := by
  intro entries
  induction entries with
  | nil =>
    intro acc log res log2 h
    simp [process_entries] at h
    exact ⟨[], by simp [h.1]⟩
  | cons e rest ih =>
    intro acc log res log2 h
    cases e with
    | error err => simp [process_entries] at h
    | ok path =>
      simp only [process_entries] at h
      split at h
      · simp at h
      · split at h
        · exact ih _ _ _ _ h
        · split at h
          · exact ih _ _ _ _ h
          · split at h
            · exact ih _ _ _ _ h
            · rename_i m0 hfp
              split at h
              · exact ih _ _ _ _ h
              · rename_i c sub hrec
                obtain ⟨t, ht⟩ := ih _ _ _ _ h
                exact ⟨m0.set_content c :: t, by simp [ht]⟩

/-- Characterization of the members of a successful entry-loop result: each
was already in the initial accumulator, or arises from a non-excluded,
non-hidden entry whose node construction and recursive descent both
succeeded, with `content` set by the loop to the descent's result. -/
theorem process_entries_mem (fs : FS)
    (recur : Meta → Except IOErr (Option (List Meta)) × List ErrEntry)
    (display : Display) (globs : GlobSet) :
    ∀ (entries : List (Except IOErr Path)) (acc : List Meta) (log : List ErrEntry)
      (res : List Meta) (log2 : List ErrEntry) (m : Meta),
      process_entries fs recur display globs entries acc log = (.ok res, log2) →
      m ∈ res →
      m ∈ acc ∨ ∃ p nm m0 c sublog,
        Path.file_name p = some nm ∧ globs.is_match nm = false ∧
        (display == Display.DisplayOnlyVisible && starts_with nm '.') = false ∧
        from_path fs p = .ok m0 ∧ recur m0 = (.ok c, sublog) ∧
        m = m0.set_content c := by
  intro entries
  induction entries with
  | nil =>
    intro acc log res log2 m h hm
    simp [process_entries] at h
    exact Or.inl (h.1 ▸ hm)
  | cons e rest ih =>
    intro acc log res log2 m h hm
    cases e with
    | error err => simp [process_entries] at h
    | ok path =>
      simp only [process_entries] at h
      split at h
      · simp at h
      · rename_i nm hfn
        split at h
        · exact ih _ _ _ _ _ h hm
        · rename_i hg
          split at h
          · exact ih _ _ _ _ _ h hm
          · rename_i hh
            split at h
            · exact ih _ _ _ _ _ h hm
            · rename_i m0 hfp
              split at h
              · exact ih _ _ _ _ _ h hm
              · rename_i c sub hrec
                rcases ih _ _ _ _ _ h hm with hin | hex
                · rcases List.mem_append.mp hin with hin2 | hone
                  · exact Or.inl hin2
                  · refine Or.inr ⟨path, nm, m0, c, sub, hfn, ?_, ?_, hfp, hrec, ?_⟩
                    · simpa using hg
                    · simpa using hh
                    · simpa using hone
                · exact Or.inr hex

theorem recurse_into_succ_ok (fs : FS) (depth : Nat) (self : Meta) (display : Display)
    (globs : GlobSet) (entries : List (Except IOErr Path)) (init : List Meta)
    (hd : display ≠ Display.DisplayDirectoryItself)
    (hft : self.file_type.is_directory = true)
    (hrd : fs.readDir self.path = .ok entries)
    (hsy : synth_entries fs self display = .ok init) :
    recurse_into fs (depth + 1) self display globs =
      ((process_entries fs (fun m => recurse_into fs depth m display globs)
          display globs entries init []).1.map some,
        (process_entries fs (fun m => recurse_into fs depth m display globs)
          display globs entries init []).2) := by
  simp [recurse_into, hd, hft, hrd, hsy]

theorem recurse_into_succ_synth_error (fs : FS) (depth : Nat) (self : Meta)
    (display : Display) (globs : GlobSet) (entries : List (Except IOErr Path)) (e : IOErr)
    (hd : display ≠ Display.DisplayDirectoryItself)
    (hft : self.file_type.is_directory = true)
    (hrd : fs.readDir self.path = .ok entries)
    (hsy : synth_entries fs self display = .error e) :
    recurse_into fs (depth + 1) self display globs = (.error e, []) := by
  simp [recurse_into, hd, hft, hrd, hsy]

/-- Every member of a successful recursive listing is either one of the
synthetic entries or arises from a non-excluded, non-hidden directory entry
whose construction succeeded, with its children computed one depth lower. -/
theorem recurse_into_mem (fs : FS) (n : Nat) (self : Meta) (display : Display)
    (globs : GlobSet) (res : List Meta) (log : List ErrEntry) (m : Meta)
    (hres : recurse_into fs (n + 1) self display globs = (.ok (some res), log))
    (hm : m ∈ res) :
    (∃ init, synth_entries fs self display = .ok init ∧ m ∈ init) ∨
    ∃ p nm m0 c sublog, Path.file_name p = some nm ∧ globs.is_match nm = false ∧
      (display == Display.DisplayOnlyVisible && starts_with nm '.') = false ∧
      from_path fs p = .ok m0 ∧
      recurse_into fs n m0 display globs = (.ok c, sublog) ∧ m = m0.set_content c := by
  by_cases hd : display = Display.DisplayDirectoryItself
  · rw [hd, recurse_into_succ_itself] at hres
    simp at hres
  · cases hft : self.file_type.is_directory
    · rw [recurse_into_succ_notdir fs n self display globs hd hft] at hres
      simp at hres
    · cases hrd : fs.readDir self.path with
      | error err =>
        rw [recurse_into_succ_readDir_error fs n self display globs err hd hft hrd] at hres
        simp at hres
      | ok entries =>
        cases hsy : synth_entries fs self display with
        | error e =>
          rw [recurse_into_succ_synth_error fs n self display globs entries e hd hft hrd hsy] at hres
          simp at hres
        | ok init =>
          rw [recurse_into_succ_ok fs n self display globs entries init hd hft hrd hsy] at hres
          have h1 := congrArg Prod.fst hres
          cases hP : (process_entries fs (fun m => recurse_into fs n m display globs)
              display globs entries init []).1 with
          | error err => rw [hP] at h1; simp [Except.map] at h1
          | ok lres =>
            rw [hP] at h1
            have hlr : lres = res := by simpa [Except.map] using h1
            subst hlr
            have hfull : process_entries fs (fun m => recurse_into fs n m display globs)
                display globs entries init [] =
                (.ok lres, (process_entries fs (fun m => recurse_into fs n m display globs)
                  display globs entries init []).2) := by
              rw [← hP]
            rcases process_entries_mem fs _ display globs entries init [] lres _ m hfull hm with
              hin | ⟨p, nm, m0, c, sublog, h2, h3, h4, h5, h6, h7⟩
            · exact Or.inl ⟨init, rfl, hin⟩
            · exact Or.inr ⟨p, nm, m0, c, sublog, h2, h3, h4, h5, h6, h7⟩

/-- The child loop of the aggregator finalizes each child in order. -/
theorem calc_list_eq_map (fs : FS) : ∀ l : List Meta,
    calc_list fs l = l.map (calculate_total_size fs) := by
  intro l
  induction l with
  | nil => rfl
  | cons x xs ih => simp [calc_list, ih]

/-- On a non-directory the aggregator does nothing. -/
theorem calculate_total_size_not_dir (fs : FS) (m : Meta)
    (h : m.file_type.is_directory = false) : calculate_total_size fs m = m := by
  cases m with
  | mk n p pe d o ft s sy i c =>
    simp only [Meta.file_type_mk] at h
    unfold calculate_total_size
    rw [h]
    simp

/-- On a directory with children present, the aggregator finalizes the
children and overwrites the size with own size plus the finalized children's
sizes. -/
theorem calculate_total_size_dir_some (fs : FS) (m : Meta) (l : List Meta)
    (hft : m.file_type.is_directory = true) (hc : m.content = some l) :
    calculate_total_size fs m =
      (m.set_content (some (calc_list fs l))).set_size
        (Size.new (m.size.get_bytes +
          ((calc_list fs l).map (fun x => x.size.get_bytes)).sum)) := by
  cases m with
  | mk n p pe d o ft s sy i c =>
    simp only [Meta.file_type_mk, Meta.content_mk] at hft hc
    subst hc
    unfold calculate_total_size
    rw [hft]
    simp

/-- On a directory with children absent, the aggregator overwrites the size
with the fallback walk's total. -/
theorem calculate_total_size_dir_none (fs : FS) (m : Meta)
    (hft : m.file_type.is_directory = true) (hc : m.content = none) :
    calculate_total_size fs m = m.set_size (Size.new (calculate_total_file_size fs m.path)) := by
  cases m with
  | mk n p pe d o ft s sy i c =>
    simp only [Meta.file_type_mk, Meta.content_mk] at hft hc
    subst hc
    unfold calculate_total_size
    rw [hft]
    simp


theorem Meta.set_size_path (m : Meta) (x) : (m.set_size x).path = m.path := by
  cases m; rfl

theorem Meta.set_size_content (m : Meta) (x) : (m.set_size x).content = m.content := by
  cases m; rfl

theorem Meta.set_size_file_type (m : Meta) (x) : (m.set_size x).file_type = m.file_type := by
  cases m; rfl

theorem Meta.set_size_size (m : Meta) (x) : (m.set_size x).size = x := by
  cases m; rfl

theorem Meta.set_content_file_type (m : Meta) (c) :
    (m.set_content c).file_type = m.file_type := by
  cases m; rfl

theorem Meta.set_content_size (m : Meta) (c) : (m.set_content c).size = m.size := by
  cases m; rfl

/-- The aggregator never changes a node's file type. -/
theorem calculate_total_size_file_type (fs : FS) (m : Meta) :
    (calculate_total_size fs m).file_type = m.file_type := by
  cases hft : m.file_type.is_directory
  · rw [calculate_total_size_not_dir fs m hft]
  · cases hc : m.content with
    | none => rw [calculate_total_size_dir_none fs m hft hc, Meta.set_size_file_type]
    | some l =>
      rw [calculate_total_size_dir_some fs m l hft hc, Meta.set_size_file_type,
        Meta.set_content_file_type]

/-- Re-running the aggregator on its own output never shrinks a node's size:
a non-directory is untouched, an unexpanded directory is recomputed to the
same fallback total, and an expanded directory only gains its children's
sizes again. -/
theorem calc_twice_ge (fs : FS) (m : Meta) :
    (calculate_total_size fs m).size.get_bytes ≤
      (calculate_total_size fs (calculate_total_size fs m)).size.get_bytes := by
  cases hft : m.file_type.is_directory
  · rw [calculate_total_size_not_dir fs m hft, calculate_total_size_not_dir fs m hft]
  · cases hc : m.content with
    | none =>
      rw [calculate_total_size_dir_none fs m hft hc]
      have hft2 : (m.set_size (Size.new (calculate_total_file_size fs m.path))).file_type.is_directory = true := by
        rw [Meta.set_size_file_type]; exact hft
      have hc2 : (m.set_size (Size.new (calculate_total_file_size fs m.path))).content = none := by
        rw [Meta.set_size_content]; exact hc
      rw [calculate_total_size_dir_none fs _ hft2 hc2]
      rw [Meta.set_size_size, Meta.set_size_size, Meta.set_size_path]
    | some l =>
      rw [calculate_total_size_dir_some fs m l hft hc]
      have hft2 : ((m.set_content (some (calc_list fs l))).set_size
          (Size.new (m.size.get_bytes +
            ((calc_list fs l).map (fun x => x.size.get_bytes)).sum))).file_type.is_directory = true := by
        rw [Meta.set_size_file_type, Meta.set_content_file_type]; exact hft
      have hc2 : ((m.set_content (some (calc_list fs l))).set_size
          (Size.new (m.size.get_bytes +
            ((calc_list fs l).map (fun x => x.size.get_bytes)).sum))).content
          = some (calc_list fs l) := by
        rw [Meta.set_size_content, Meta.set_content_content]
      rw [calculate_total_size_dir_some fs _ (calc_list fs l) hft2 hc2]
      rw [Meta.set_size_size, Meta.set_size_size]
      exact Nat.le_add_right _ _

/-- Re-running the aggregator on an already-finalized child list never
shrinks the combined size of the children. -/
theorem calc_list_twice_ge (fs : FS) : ∀ l : List Meta,
    ((calc_list fs l).map (fun x => x.size.get_bytes)).sum ≤
      ((calc_list fs (calc_list fs l)).map (fun x => x.size.get_bytes)).sum := by
  intro l
  induction l with
  | nil => simp [calc_list]
  | cons x xs ih =>
    simp only [calc_list, List.map_cons, List.sum_cons]
    exact Nat.add_le_add (calc_twice_ge fs x) ih

/-- Claim C8: on a directory node with children present the aggregator first
finalizes every child (post-order) and then overwrites the size with the
node's own entry size plus the finalized children's sizes; a directory with
an empty child list keeps a size equal to its own entry size; a
non-directory node is left unchanged (in particular its size). -/
theorem c8_total_size_post_order (fs : FS) (m : Meta) :
    (m.file_type.is_directory = false → calculate_total_size fs m = m) ∧
    (∀ l, m.file_type.is_directory = true → m.content = some l →
      calculate_total_size fs m =
        (m.set_content (some (l.map (calculate_total_size fs)))).set_size
          (Size.new (m.size.get_bytes +
            ((l.map (calculate_total_size fs)).map (fun x => x.size.get_bytes)).sum))) ∧
    (m.file_type.is_directory = true → m.content = some [] →
      (calculate_total_size fs m).size = m.size) := by
  refine ⟨fun h => calculate_total_size_not_dir fs m h, fun l hft hc => ?_, fun hft hc => ?_⟩
  · rw [calculate_total_size_dir_some fs m l hft hc, calc_list_eq_map]
  · rw [calculate_total_size_dir_some fs m [] hft hc, Meta.set_size_size]
    cases hs : m.size with
    | mk b => simp [calc_list, Size.new, Size.get_bytes, hs]

/-- Claim C8 witness: the three conclusions instantiated at concrete nodes
over the all-failing filesystem. -/
theorem c8_total_size_post_order_witness :
    (mFile.file_type.is_directory = false ∧ calculate_total_size fsE mFile = mFile) ∧
    (mDir.file_type.is_directory = true ∧ mDir.content = some [mFile] ∧
      calculate_total_size fsE mDir =
        (mDir.set_content (some ([mFile].map (calculate_total_size fsE)))).set_size
          (Size.new (mDir.size.get_bytes +
            (([mFile].map (calculate_total_size fsE)).map (fun x => x.size.get_bytes)).sum))) ∧
    (mDirEmpty.file_type.is_directory = true ∧ mDirEmpty.content = some [] ∧
      (calculate_total_size fsE mDirEmpty).size = mDirEmpty.size) :=
  ⟨⟨rfl, (c8_total_size_post_order fsE mFile).1 rfl⟩,
    ⟨rfl, rfl, (c8_total_size_post_order fsE mDir).2.1 [mFile] rfl rfl⟩,
    ⟨rfl, rfl, (c8_total_size_post_order fsE mDirEmpty).2.2 rfl rfl⟩⟩

/-- Claim C9: the aggregator is not idempotent on its own output.  For a
directory node whose finalized tree has children present with a strictly
positive combined size, a second application adds the children's sizes into
the parent again, yielding a strictly larger size. -/
theorem c9_not_idempotent (fs : FS) (m : Meta) (uid : Bool) (l : List Meta)
    (hft : m.file_type = FileType.Directory uid)
    (hc : (calculate_total_size fs m).content = some l)
    (hpos : 0 < (l.map (fun x => x.size.get_bytes)).sum) :
    (calculate_total_size fs m).size.get_bytes <
      (calculate_total_size fs (calculate_total_size fs m)).size.get_bytes := by
  have hdir : m.file_type.is_directory = true := by rw [hft]; rfl
  cases hc0 : m.content with
  | none =>
    rw [calculate_total_size_dir_none fs m hdir hc0, Meta.set_size_content, hc0] at hc
    cases hc
  | some l0 =>
    have heq := calculate_total_size_dir_some fs m l0 hdir hc0
    rw [heq, Meta.set_size_content, Meta.set_content_content] at hc
    have hl : l = calc_list fs l0 := (Option.some.inj hc).symm
    subst hl
    have hft2 : (calculate_total_size fs m).file_type.is_directory = true := by
      rw [calculate_total_size_file_type]; exact hdir
    have hc2 : (calculate_total_size fs m).content = some (calc_list fs l0) := by
      rw [heq, Meta.set_size_content, Meta.set_content_content]
    rw [calculate_total_size_dir_some fs (calculate_total_size fs m) (calc_list fs l0) hft2 hc2,
      Meta.set_size_size]
    have h3 := calc_list_twice_ge fs l0
    simp only [Size.new, Size.get_bytes] at *
    omega

/-- Claim C9 witness: a directory of entry size 1 with one file child of
size 5; the first pass yields total 6, the second yields 11. -/
theorem c9_not_idempotent_witness :
    mDir.file_type = FileType.Directory false ∧
    (calculate_total_size fsE mDir).content = some [mFile] ∧
    0 < (([mFile] : List Meta).map (fun x => x.size.get_bytes)).sum ∧
    (calculate_total_size fsE mDir).size.get_bytes <
      (calculate_total_size fsE (calculate_total_size fsE mDir)).size.get_bytes :=
  ⟨rfl, rfl, by decide,
    c9_not_idempotent fsE mDir false [mFile] rfl rfl (by decide)⟩

/-- Claim C10: `recurse_into` takes its receiver by shared reference and
never mutates it; across the call every field of the receiver is unchanged,
and the computed child list is only returned (the caller stores it). -/
theorem c10_receiver_unchanged (fs : FS) (self : Meta) (depth : Nat)
    (display : Display) (globs : GlobSet) :
    (recurse_into_call fs self depth display globs).1.name = self.name ∧
    (recurse_into_call fs self depth display globs).1.path = self.path ∧
    (recurse_into_call fs self depth display globs).1.permissions = self.permissions ∧
    (recurse_into_call fs self depth display globs).1.date = self.date ∧
    (recurse_into_call fs self depth display globs).1.owner = self.owner ∧
    (recurse_into_call fs self depth display globs).1.file_type = self.file_type ∧
    (recurse_into_call fs self depth display globs).1.size = self.size ∧
    (recurse_into_call fs self depth display globs).1.symlink = self.symlink ∧
    (recurse_into_call fs self depth display globs).1.indicator = self.indicator ∧
    (recurse_into_call fs self depth display globs).1.content = self.content ∧
    (recurse_into_call fs self depth display globs).2 =
      recurse_into fs depth self display globs :=
  ⟨rfl, rfl, rfl, rfl, rfl, rfl, rfl, rfl, rfl, rfl, rfl⟩

/-- Claim C4: with budget 0 the builder returns `Ok(None)` with nothing read
and nothing reported; with budget `N ≥ 1` every child in the returned list
was built from a successfully constructed node whose own subtree was
computed with budget `N - 1` (synthetic entries aside). -/
theorem c4_depth_budget (fs : FS) :
    (∀ (self : Meta) (display : Display) (globs : GlobSet),
      recurse_into fs 0 self display globs = (.ok none, [])) ∧
    (∀ (n : Nat) (self : Meta) (display : Display) (globs : GlobSet)
        (res : List Meta) (log : List ErrEntry) (m : Meta),
      recurse_into fs (n + 1) self display globs = (.ok (some res), log) →
      m ∈ res →
      (∃ init, synth_entries fs self display = .ok init ∧ m ∈ init) ∨
      ∃ p m0 c sublog, from_path fs p = .ok m0 ∧
        recurse_into fs n m0 display globs = (.ok c, sublog) ∧
        m = m0.set_content c) := by
  refine ⟨fun self display globs => rfl, fun n self display globs res log m hres hm => ?_⟩
  rcases recurse_into_mem fs n self display globs res log m hres hm with
    hin | ⟨p, nm, m0, c, sublog, _, _, _, h5, h6, h7⟩
  · exact Or.inl hin
  · exact Or.inr ⟨p, m0, c, sublog, h5, h6, h7⟩

/-- Claim C5: under `All` mode, whenever enumeration, canonicalization and
parent construction succeed, the returned children list begins with the `.`
copy of the node itself followed by the `..` parent node, in that order, and
neither synthetic entry was recursed into (their `content` is untouched). -/
theorem c5_synthetic_first (fs : FS) (n : Nat) (self : Meta) (globs : GlobSet)
    (entries : List (Except IOErr Path)) (ap : Path) (pm : Meta)
    (res : List Meta) (log : List ErrEntry)
    (hft : self.file_type.is_directory = true)
    (hrd : fs.readDir self.path = .ok entries)
    (hcan : fs.canonicalize self.path = .ok ap)
    (hpm : from_path fs (parent_path_of ap) = .ok pm)
    (hres : recurse_into fs (n + 1) self Display.DisplayAll globs = (.ok (some res), log)) :
    (∃ t, res = self.set_name ⟨"."⟩ :: pm.set_name ⟨".."⟩ :: t) ∧
    (self.set_name ⟨"."⟩).content = self.content ∧
    (pm.set_name ⟨".."⟩).content = none := by
  have hsy : synth_entries fs self Display.DisplayAll =
      .ok [self.set_name ⟨"."⟩, pm.set_name ⟨".."⟩] := by
    simp [synth_entries, hcan, hpm]
  rw [recurse_into_succ_ok fs n self Display.DisplayAll globs entries _ (by simp) hft hrd hsy]
    at hres
  have h1 := congrArg Prod.fst hres
  cases hP : (process_entries fs (fun m => recurse_into fs n m Display.DisplayAll globs)
      Display.DisplayAll globs entries [self.set_name ⟨"."⟩, pm.set_name ⟨".."⟩] []).1 with
  | error err => rw [hP] at h1; simp [Except.map] at h1
  | ok lres =>
    rw [hP] at h1
    have hlr : lres = res := by simpa [Except.map] using h1
    subst hlr
    have hfull : process_entries fs (fun m => recurse_into fs n m Display.DisplayAll globs)
        Display.DisplayAll globs entries [self.set_name ⟨"."⟩, pm.set_name ⟨".."⟩] [] =
        (.ok lres, (process_entries fs (fun m => recurse_into fs n m Display.DisplayAll globs)
          Display.DisplayAll globs entries [self.set_name ⟨"."⟩, pm.set_name ⟨".."⟩] []).2) := by
      rw [← hP]
    obtain ⟨t, ht⟩ := process_entries_prefix fs _ Display.DisplayAll globs entries _ [] lres _ hfull
    refine ⟨⟨t, by simpa using ht⟩, Meta.set_name_content self _, ?_⟩
    rw [Meta.set_name_content]
    exact (from_path_ok fs _ pm hpm).2

/-- Claim C6: an enumerated entry whose name matches the exclusion set never
appears in the children list under any display mode (every non-synthetic
member's file name fails the glob test), and the loop skips a matching entry
outright, before any node construction or recursion is consulted. -/
theorem c6_exclusion (fs : FS) :
    (∀ (depth : Nat) (self : Meta) (display : Display) (globs : GlobSet)
        (res : List Meta) (log : List ErrEntry) (m : Meta),
      recurse_into fs depth self display globs = (.ok (some res), log) →
      m ∈ res →
      (∃ init, synth_entries fs self display = .ok init ∧ m ∈ init) ∨
      (∃ nm, Path.file_name m.path = some nm ∧ globs.is_match nm = false)) ∧
    (∀ (recur : Meta → Except IOErr (Option (List Meta)) × List ErrEntry)
        (display : Display) (globs : GlobSet) (p : Path) (nm : String)
        (rest : List (Except IOErr Path)) (acc : List Meta) (log : List ErrEntry),
      Path.file_name p = some nm → globs.is_match nm = true →
      process_entries fs recur display globs (.ok p :: rest) acc log =
        process_entries fs recur display globs rest acc log) := by
  constructor
  · intro depth self display globs res log m hres hm
    cases depth with
    | zero => rw [recurse_into_zero] at hres; simp at hres
    | succ n =>
      rcases recurse_into_mem fs n self display globs res log m hres hm with
        hin | ⟨p, nm, m0, c, sublog, h2, h3, _, h5, _, h7⟩
      · exact Or.inl hin
      · refine Or.inr ⟨nm, ?_, h3⟩
        rw [h7, Meta.set_content_path, (from_path_ok fs p m0 h5).1]
        exact h2
  · intro recur display globs p nm rest acc log hfn hg
    simp [process_entries, hfn, hg]

/-- Claim C7: the builder answers `Ok(None)` exactly in the four
no-enumeration cases — exhausted depth budget, itself-only mode,
non-directory node, or a failed directory open — and a failed open is
reported to the error channel rather than propagated; every other
successful outcome is `Ok(Some ..)`. -/
theorem c7_none_iff (fs : FS) (depth : Nat) (self : Meta) (display : Display)
    (globs : GlobSet) :
    ((recurse_into fs depth self display globs).1 = .ok none ↔
      depth = 0 ∨ display = Display.DisplayDirectoryItself ∨
        self.file_type.is_directory = false ∨
        ∃ e, fs.readDir self.path = .error e) ∧
    (∀ (n : Nat) (e : IOErr), depth = n + 1 →
      display ≠ Display.DisplayDirectoryItself →
      self.file_type.is_directory = true → fs.readDir self.path = .error e →
      recurse_into fs depth self display globs = (.ok none, [(self.path, e)])) := by
  constructor
  · cases depth with
    | zero => simp [recurse_into_zero]
    | succ n =>
      by_cases hd : display = Display.DisplayDirectoryItself
      · rw [hd, recurse_into_succ_itself]
        simp
      · cases hft : self.file_type.is_directory
        · rw [recurse_into_succ_notdir fs n self display globs hd hft]
          simp
        · cases hrd : fs.readDir self.path with
          | error err =>
            rw [recurse_into_succ_readDir_error fs n self display globs err hd hft hrd]
            simp
          | ok entries =>
            cases hsy : synth_entries fs self display with
            | error e =>
              rw [recurse_into_succ_synth_error fs n self display globs entries e hd hft hrd hsy]
              simp [hd, hft, hrd]
            | ok init =>
              rw [recurse_into_succ_ok fs n self display globs entries init hd hft hrd hsy]
              cases hP : (process_entries fs (fun m => recurse_into fs n m display globs)
                  display globs entries init []).1 with
              | error err => simp [hP, Except.map, hd, hft, hrd]
              | ok lres => simp [hP, Except.map, hd, hft, hrd]
  · intro n e hn hd hft hrd
    subst hn
    exact recurse_into_succ_readDir_error fs n self display globs e hd hft hrd

/-- Claim C1 (amended): when the recursive descent into a child fails, the
error is reported to the error channel and the entry is skipped entirely —
it contributes nothing to the result list (it is not appended at all). -/
theorem c1_descent_error_skips (fs : FS) (depth : Nat) (display : Display)
    (globs : GlobSet) (p : Path) (nm : String) (rest : List (Except IOErr Path))
    (acc : List Meta) (log sublog : List ErrEntry) (m : Meta) (err : IOErr)
    (hfn : Path.file_name p = some nm)
    (hg : globs.is_match nm = false)
    (hh : (display == Display.DisplayOnlyVisible && starts_with nm '.') = false)
    (hfp : from_path fs p = .ok m)
    (hr : recurse_into fs depth m display globs = (.error err, sublog)) :
    process_entries fs (fun x => recurse_into fs depth x display globs) display globs
        (.ok p :: rest) acc log =
      process_entries fs (fun x => recurse_into fs depth x display globs) display globs
        rest acc (log ++ sublog ++ [(p, err)]) := by
  simp [process_entries, hfn, hg, hh, hfp, hr]

/-- Claim C1 witness: the skip equation instantiated at the concrete child
`w/c`, whose construction succeeds and whose descent fails. -/
theorem c1_descent_error_skips_witness :
    Path.file_name ["w", "c"] = some "c" ∧
    noGlobs.is_match "c" = false ∧
    (Display.DisplayOnlyVisible == Display.DisplayOnlyVisible && starts_with "c" '.') = false ∧
    from_path fsW ["w", "c"] = .ok c1child ∧
    recurse_into fsW 1 c1child Display.DisplayOnlyVisible noGlobs =
      (.error .permissionDenied, []) ∧
    process_entries fsW (fun x => recurse_into fsW 1 x Display.DisplayOnlyVisible noGlobs)
        Display.DisplayOnlyVisible noGlobs [.ok ["w", "c"]] [] [] =
      process_entries fsW (fun x => recurse_into fsW 1 x Display.DisplayOnlyVisible noGlobs)
        Display.DisplayOnlyVisible noGlobs [] []
        ([] ++ [] ++ [(["w", "c"], .permissionDenied)]) :=
  ⟨rfl, rfl, rfl, rfl, rfl,
    c1_descent_error_skips fsW 1 Display.DisplayOnlyVisible noGlobs ["w", "c"] "c"
      [] [] [] [] c1child .permissionDenied rfl rfl rfl rfl rfl⟩

/-- Claim C1 counterexample: over the concrete filesystem, the child node
for `w/c` is constructed successfully, its recursive descent returns an
error, yet the children list returned for `w` is empty — the entry does NOT
appear with `children = None` as the claim asserts; it is dropped. -/
theorem c1_counterexample :
    from_path fsW ["w", "c"] = .ok c1child ∧
    (recurse_into fsW 1 c1child Display.DisplayOnlyVisible noGlobs).1 =
      .error .permissionDenied ∧
    recurse_into fsW 2 rootW Display.DisplayOnlyVisible noGlobs =
      (.ok (some []), [(["w", "c"], IOErr.permissionDenied)]) :=
  ⟨rfl, rfl, rfl⟩

/-- Claim C2 (amended): in the fallback walk, a symlink — whose metadata is
fetched without following the link — satisfies neither the `is_file` nor the
`is_dir` branch, so it contributes 0 (not its own recorded size) and is not
recursed into. -/
theorem c2_symlink_contributes_zero (fs : FS) (p : Path) (t : Path) (md : Metadata)
    (hl : fs.readLink p = .ok t)
    (hm : fs.symlinkMetadata p = .ok md)
    (hraw : md.raw = RawType.symlink) :
    calculate_total_file_size fs p = 0 := by
  unfold calculate_total_file_size
  rw [hl, hm]
  simp [isOk, hraw, RawType.is_file, RawType.is_dir]

/-- Claim C2 witness: the amended statement applied to the concrete symlink
`l` of recorded size 7. -/
theorem c2_symlink_contributes_zero_witness :
    fsW.readLink ["l"] = .ok ["t"] ∧
    fsW.symlinkMetadata ["l"] = .ok ⟨7, RawType.symlink, 0, 0, 0, 0⟩ ∧
    (⟨7, RawType.symlink, 0, 0, 0, 0⟩ : Metadata).raw = RawType.symlink ∧
    calculate_total_file_size fsW ["l"] = 0 :=
  ⟨rfl, rfl, rfl,
    c2_symlink_contributes_zero fsW ["l"] ["t"] ⟨7, RawType.symlink, 0, 0, 0, 0⟩ rfl rfl rfl⟩

/-- Claim C2 counterexample: the symlink `l` records size 7, yet the
fallback walk contributes 0 for it — not the link's own recorded size as the
claim asserts. -/
theorem c2_counterexample :
    fsW.readLink ["l"] = .ok ["t"] ∧
    fsW.symlinkMetadata ["l"] = .ok ⟨7, RawType.symlink, 0, 0, 0, 0⟩ ∧
    (⟨7, RawType.symlink, 0, 0, 0, 0⟩ : Metadata).len = 7 ∧
    calculate_total_file_size fsW ["l"] = 0 ∧ (0 : Nat) ≠ 7 := by
  refine ⟨rfl, rfl, rfl, ?_, by decide⟩
  unfold calculate_total_file_size
  rfl

/-- Claim C3 (amended): under the Default display mode the hidden-file
filter does not fire — a dotfile entry that is not glob-excluded and whose
construction and descent succeed is appended to the children list like any
other entry; the leading-dot skip applies only under OnlyVisible, so Default
does NOT behave like OnlyVisible. -/
theorem c3_default_keeps_dotfiles (fs : FS) (depth : Nat) (globs : GlobSet)
    (p : Path) (nm : String) (rest : List (Except IOErr Path)) (acc : List Meta)
    (log sublog : List ErrEntry) (m : Meta) (c : Option (List Meta))
    (_hdot : starts_with nm '.' = true)
    (hfn : Path.file_name p = some nm)
    (hg : globs.is_match nm = false)
    (hfp : from_path fs p = .ok m)
    (hr : recurse_into fs depth m Display.DisplayDefault globs = (.ok c, sublog)) :
    process_entries fs (fun x => recurse_into fs depth x Display.DisplayDefault globs)
        Display.DisplayDefault globs (.ok p :: rest) acc log =
      process_entries fs (fun x => recurse_into fs depth x Display.DisplayDefault globs)
        Display.DisplayDefault globs rest (acc ++ [m.set_content c]) (log ++ sublog) := by
  simp [process_entries, hfn, hg, hfp, hr]

/-- Claim C3 witness: the amended statement applied to the concrete dotfile
entry `r/.h` under Default mode. -/
theorem c3_default_keeps_dotfiles_witness :
    starts_with ".h" '.' = true ∧
    Path.file_name ["r", ".h"] = some ".h" ∧
    noGlobs.is_match ".h" = false ∧
    from_path fsW ["r", ".h"] = .ok c3hidden ∧
    recurse_into fsW 0 c3hidden Display.DisplayDefault noGlobs = (.ok none, []) ∧
    process_entries fsW (fun x => recurse_into fsW 0 x Display.DisplayDefault noGlobs)
        Display.DisplayDefault noGlobs [.ok ["r", ".h"]] [] [] =
      process_entries fsW (fun x => recurse_into fsW 0 x Display.DisplayDefault noGlobs)
        Display.DisplayDefault noGlobs [] [c3hidden.set_content none] [] := by
  refine ⟨rfl, rfl, rfl, rfl, rfl, ?_⟩
  have h := c3_default_keeps_dotfiles fsW 0 noGlobs ["r", ".h"] ".h" [] [] [] [] c3hidden
    none rfl rfl rfl rfl rfl
  simpa using h

/-- Claim C3 counterexample: listing `r` (whose only entry is the dotfile
`.h`) at depth 1 returns that entry under Default mode but skips it under
OnlyVisible — Default does not behave identically to OnlyVisible, and the
dotfile is not skipped under Default. -/
theorem c3_counterexample :
    starts_with ".h" '.' = true ∧
    recurse_into fsW 1 rootR Display.DisplayDefault noGlobs =
      (.ok (some [c3hidden]), []) ∧
    recurse_into fsW 1 rootR Display.DisplayOnlyVisible noGlobs =
      (.ok (some []), []) :=
  ⟨rfl, rfl, rfl⟩

/-- Claim C4 witness: budget 0 returns `Ok(None)` for the concrete root,
and at budget 1 the single returned child of `r` satisfies the
budget-decrement characterization. -/
theorem c4_depth_budget_witness :
    recurse_into fsW 0 rootR Display.DisplayDefault noGlobs = (.ok none, []) ∧
    recurse_into fsW 1 rootR Display.DisplayDefault noGlobs =
      (.ok (some [c3hidden]), []) ∧
    ((∃ init, synth_entries fsW rootR Display.DisplayDefault = .ok init ∧ c3hidden ∈ init) ∨
      ∃ p m0 c sublog, from_path fsW p = .ok m0 ∧
        recurse_into fsW 0 m0 Display.DisplayDefault noGlobs = (.ok c, sublog) ∧
        c3hidden = m0.set_content c) :=
  ⟨(c4_depth_budget fsW).1 rootR Display.DisplayDefault noGlobs, rfl,
    (c4_depth_budget fsW).2 0 rootR Display.DisplayDefault noGlobs [c3hidden] []
      c3hidden rfl (by simp)⟩

/-- Claim C5 witness: listing the empty directory `a` under All mode yields
exactly the `.` and `..` synthetic entries, in that order, unrecursed. -/
theorem c5_synthetic_first_witness :
    rootA.file_type.is_directory = true ∧
    fsW.readDir ["a"] = .ok [] ∧
    fsW.canonicalize ["a"] = .ok ["a"] ∧
    from_path fsW (parent_path_of ["a"]) = .ok mRootFs ∧
    recurse_into fsW 1 rootA Display.DisplayAll noGlobs =
      (.ok (some [rootA.set_name ⟨"."⟩, mRootFs.set_name ⟨".."⟩]), []) ∧
    ((∃ t, [rootA.set_name ⟨"."⟩, mRootFs.set_name ⟨".."⟩] =
        rootA.set_name ⟨"."⟩ :: mRootFs.set_name ⟨".."⟩ :: t) ∧
      (rootA.set_name ⟨"."⟩).content = rootA.content ∧
      (mRootFs.set_name ⟨".."⟩).content = none) :=
  ⟨rfl, rfl, rfl, rfl, rfl,
    c5_synthetic_first fsW 0 rootA noGlobs [] ["a"] mRootFs
      [rootA.set_name ⟨"."⟩, mRootFs.set_name ⟨".."⟩] [] rfl rfl rfl rfl rfl⟩

/-- Claim C6 witness: the non-excluded member of `r`'s listing satisfies the
characterization, and a glob-matching entry is skipped outright by the loop. -/
theorem c6_exclusion_witness :
    recurse_into fsW 1 rootR Display.DisplayDefault noGlobs =
      (.ok (some [c3hidden]), []) ∧
    ((∃ init, synth_entries fsW rootR Display.DisplayDefault = .ok init ∧ c3hidden ∈ init) ∨
      (∃ nm, Path.file_name c3hidden.path = some nm ∧ noGlobs.is_match nm = false)) ∧
    (Path.file_name ["r", ".h"] = some ".h" ∧ matchH.is_match ".h" = true ∧
      process_entries fsW (fun x => recurse_into fsW 0 x Display.DisplayDefault matchH)
          Display.DisplayDefault matchH [.ok ["r", ".h"]] [] [] =
        process_entries fsW (fun x => recurse_into fsW 0 x Display.DisplayDefault matchH)
          Display.DisplayDefault matchH [] [] []) :=
  ⟨rfl,
    (c6_exclusion fsW).1 1 rootR Display.DisplayDefault noGlobs [c3hidden] []
      c3hidden rfl (by simp),
    rfl, rfl,
    (c6_exclusion fsW).2 _ Display.DisplayDefault matchH ["r", ".h"] ".h" [] [] []
      rfl rfl⟩

/-- Claim C7 witness: a directory whose open fails yields `Ok(None)` with
the failure reported, and the `Ok(None)` characterization instantiated at a
successfully listed directory. -/
theorem c7_none_iff_witness :
    recurse_into fsW 1 rootZ Display.DisplayDefault noGlobs =
      (.ok none, [(["z"], IOErr.notFound)]) ∧
    ((recurse_into fsW 1 rootR Display.DisplayDefault noGlobs).1 = .ok none ↔
      (1 = 0 ∨ Display.DisplayDefault = Display.DisplayDirectoryItself ∨
        rootR.file_type.is_directory = false ∨
        ∃ e, fsW.readDir rootR.path = .error e)) :=
  ⟨(c7_none_iff fsW 1 rootZ Display.DisplayDefault noGlobs).2 0 IOErr.notFound rfl
      (by decide) rfl rfl,
    (c7_none_iff fsW 1 rootR Display.DisplayDefault noGlobs).1⟩

end Lsd
